import Mathlib

/-!
Verification of `mesonbuild/compilers/mixins/sdcc.py` (the SDCC compiler
mixin of the meson build system).

Python strings are modelled as `List Char` (`Str`).  The POSIX path helpers
`os.path.join` and `os.path.normpath` used by the mixin are embedded
faithfully from CPython's `posixpath.join` / `posixpath.normpath`.
Python `dict` lookups (`d[k]`, raising `KeyError` on a missing key) are
modelled as association-list lookups returning `Option` (`none` = `KeyError`).
Raised `EnvironmentException`s are modelled as `Except.error` carrying the
exception message.
-/

abbrev Str := List Char

/-- Python `s.split('/')`: split a string on the slash character.  The result
is never empty; `''.split('/') == ['']`. -/
def splitSlash : Str → List Str
  | [] => [[]]
  | c :: rest =>
    if c = '/' then [] :: splitSlash rest
    else
      match splitSlash rest with
      | [] => [[c]]
      | h :: t => (c :: h) :: t

/-- Python `'/'.join(parts)`. -/
def joinSlash : List Str → Str
  | [] => []
  | [x] => x
  | x :: xs => x ++ '/' :: joinSlash xs

/-- CPython `posixpath.join(a, b)` (two-argument case): if `b` is absolute it
replaces `a`; otherwise it is appended, inserting a slash unless `a` is empty
or already ends with one. -/
def pyJoin (a b : Str) : Str :=
  if b.take 1 = ['/'] then b
  else if a = [] ∨ a.getLast? = some '/' then a ++ b
  else a ++ '/' :: b

/-- CPython `posixpath.normpath`: the number of leading slashes kept in the
result (0, 1, or 2 — POSIX allows an implementation-defined meaning for
exactly two leading slashes). -/
def initialSlashes (p : Str) : Nat :=
  if p.take 1 = ['/'] then
    if p.take 2 = ['/', '/'] ∧ ¬ p.take 3 = ['/', '/', '/'] then 2 else 1
  else 0

/-- One step of `posixpath.normpath`'s component loop: skip empty and `.`
components, append ordinary components, and let `..` cancel a previous
component (kept literally when there is nothing to cancel in a relative
path, or when the previous component is itself a kept `..`). -/
def normStep (islashes : Nat) (acc : List Str) (comp : Str) : List Str :=
  if comp = [] ∨ comp = ['.'] then acc
  else if ¬ comp = ['.', '.'] ∨ (islashes = 0 ∧ acc = []) ∨
      (¬ acc = [] ∧ acc.getLast? = some ['.', '.']) then
    acc ++ [comp]
  else if ¬ acc = [] then acc.dropLast
  else acc

/-- The folded component list of `posixpath.normpath`. -/
def normComps (islashes : Nat) (comps : List Str) : List Str :=
  comps.foldl (normStep islashes) []

/-- CPython `posixpath.normpath(p)`. -/
def normpath (p : Str) : Str :=
  if p = [] then ['.']
  else
    let k := initialSlashes p
    let q := List.replicate k '/' ++ joinSlash (normComps k (splitSlash p))
    if q = [] then ['.'] else q

/-- Python `s.rsplit('.', 1)[0]`: everything before the last dot, or the
whole string when there is no dot. -/
def rsplitDotHead (s : Str) : Str :=
  if '.' ∈ s then ((s.reverse.dropWhile (fun c => ¬ c = '.')).drop 1).reverse
  else s

-- Concrete checks of the path model against CPython behaviour.
example : normpath [] = ".".data := by decide
example : normpath "/".data = "/".data := by decide
example : normpath "//".data = "//".data := by decide
example : normpath "///".data = "/".data := by decide
example : normpath "//a".data = "//a".data := by decide
example : normpath "b/".data = "b".data := by decide
example : normpath "/..".data = "/".data := by decide
example : normpath "a/../b".data = "b".data := by decide
example : normpath "../x".data = "../x".data := by decide
example : normpath "a//b".data = "a/b".data := by decide
example : normpath "./a/./".data = "a".data := by decide
example : normpath "../..".data = "../..".data := by decide
example : normpath "/a/../../b".data = "/b".data := by decide
example : pyJoin "b".data [] = "b/".data := by decide
example : pyJoin [] "a".data = "a".data := by decide
example : pyJoin "b/".data "a".data = "b/a".data := by decide
example : pyJoin "b".data "/a".data = "/a".data := by decide
example : rsplitDotHead "a.b.c".data = "a.b".data := by decide
example : rsplitDotHead "abc".data = "abc".data := by decide
example : rsplitDotHead "sanitycheckc.c".data = "sanitycheckc".data := by decide

/-! ## Flag tables and argument synthesis (`SdccCompiler`) -/

/-- Association-list model of a Python `dict` keyed by strings; `d[k]`
returns `none` in place of raising `KeyError`. -/
def dictLookup {α : Type} (m : List (Str × α)) (k : Str) : Option α :=
  match m with
  | [] => none
  | (k', v) :: rest => if k = k' then some v else dictLookup rest k

/-- Table `SdccCompiler.OPTIMIZATION_ARGS`. -/
def OPTIMIZATION_ARGS : List (Str × List Str) :=
  [("plain".data, []),
   ("0".data, []),
   ("g".data, []),
   ("1".data, ["--opt-code-speed".data]),
   ("2".data, ["--opt-code-speed".data]),
   ("3".data, ["--opt-code-speed".data]),
   ("s".data, ["--opt-code-size".data])]

/-- Table `SdccCompiler.DEBUG_ARGS` (keyed by a Python `bool`). -/
def DEBUG_ARGS : List (Bool × List Str) :=
  [(false, []),
   (true, ["--debug".data])]

/-- Method `SdccCompiler.get_optimization_args`: `self.OPTIMIZATION_ARGS[optimization_level]`. -/
def get_optimization_args (optimization_level : Str) : Option (List Str) :=
  dictLookup OPTIMIZATION_ARGS optimization_level

/-- Method `SdccCompiler.get_debug_args`: `self.DEBUG_ARGS[is_debug]`. -/
def get_debug_args (is_debug : Bool) : Option (List Str) :=
  match DEBUG_ARGS with
  | [] => none
  | (k, v) :: rest =>
    if is_debug = k then some v
    else match rest with
         | [] => none
         | (k', v') :: _ => if is_debug = k' then some v' else none

/-- Method `SdccCompiler.get_include_args(path, is_system)`. -/
def get_include_args (path : Str) (is_system : Bool) : List Str :=
  let path := if path = [] then ['.'] else path
  ["-I".data ++ path]

/-- Constructor `SdccCompiler.__init__`: raises `EnvironmentException` unless
`self.is_cross`; on success sets `base_options = {OptionKey('b_ndebug')}`
(modelled as the list of option-key names). -/
def sdccInit (is_cross : Bool) : Except Str (List Str) :=
  if ¬ is_cross then .error "sdcc supports only cross-compilation.".data
  else .ok ["b_ndebug".data]

/-! ## `compute_parameters_with_absolute_paths`

The Python method iterates over `enumerate(parameter_list)` and reassigns
`parameter_list[idx]` in place, then returns `parameter_list` — the very
object the caller passed in.  The loop is embedded index by index
(`List.set` models the in-place element assignment); the call's observable
outcome is a pair of the returned list and the final state of the caller's
`parameter_list` argument, which are the same mutated object. -/

/-- The loop body of `compute_parameters_with_absolute_paths`, iterating
`idx` over the (mutated-in-place) list. -/
def computeLoop (build_dir : Str) (pl : List Str) (idx : Nat) : List Str :=
  if h : idx < pl.length then
    computeLoop build_dir
      (if (pl.get ⟨idx, h⟩).take 2 = "-I".data ∨ (pl.get ⟨idx, h⟩).take 2 = "-L".data
       then pl.set idx ((pl.get ⟨idx, h⟩).take 2
              ++ normpath (pyJoin build_dir ((pl.get ⟨idx, h⟩).drop 2)))
       else pl)
      (idx + 1)
  else pl
termination_by pl.length - idx
decreasing_by
  split
  · rw [List.length_set]; omega
  · omega

/-- Result of a call to `compute_parameters_with_absolute_paths`: the value
returned (`ret`) and the final state of the caller-supplied
`parameter_list` object (`arg`). -/
structure PyCallResult where
  ret : List Str
  arg : List Str
  deriving DecidableEq

/-- Method `SdccCompiler.compute_parameters_with_absolute_paths`: rewrites `-I`/`-L`
tokens in place and returns the (same, mutated) list. -/
def compute_parameters_with_absolute_paths (parameter_list : List Str)
    (build_dir : Str) : PyCallResult :=
  let final := computeLoop build_dir parameter_list 0
  { ret := final, arg := final }

/-- The per-token effect of the loop (used to characterise it). -/
def rewriteTok (build_dir i : Str) : Str :=
  if i.take 2 = "-I".data ∨ i.take 2 = "-L".data
  then i.take 2 ++ normpath (pyJoin build_dir (i.drop 2))
  else i

/-- Taking one element past an in-range `set` splits off the written value. -/
theorem set_take_succ (pl : List Str) (idx : Nat) (v : Str) (h : idx < pl.length) :
    (pl.set idx v).take (idx + 1) = pl.take idx ++ [v] := by
  rw [← List.take_concat_get _ idx (by simpa using h)]
  rw [List.getElem_set_self (by simpa using h)]
  rw [List.set_take, List.set_eq_of_length_le (by simp), List.concat_eq_append]

/-- The loop rewrites every element from `idx` on (when it carries a
`-I`/`-L` marker) and leaves the prefix before `idx` alone. -/
theorem computeLoop_eq_map (build_dir : Str) :
    ∀ fuel pl idx, pl.length ≤ idx + fuel →
      computeLoop build_dir pl idx
        = pl.take idx ++ (pl.drop idx).map (rewriteTok build_dir) := by
  intro fuel
  induction fuel with
  | zero =>
    intro pl idx hle
    rw [computeLoop]
    rw [dif_neg (by omega)]
    rw [List.drop_eq_nil_of_le (by omega), List.map_nil, List.append_nil,
      List.take_of_length_le (by omega)]
  | succ fuel ih =>
    intro pl idx hle
    rw [computeLoop]
    by_cases h : idx < pl.length
    · rw [dif_pos h]
      have hget : pl.get ⟨idx, h⟩ = pl[idx] := rfl
      by_cases hm : pl[idx].take 2 = "-I".data ∨ pl[idx].take 2 = "-L".data
      · rw [if_pos (by simpa [hget] using hm)]
        rw [ih _ _ (by rw [List.length_set]; omega)]
        rw [hget, set_take_succ _ _ _ h, List.drop_set, if_pos (by omega)]
        rw [List.drop_eq_getElem_cons h, List.map_cons]
        have hrw : rewriteTok build_dir pl[idx]
            = pl[idx].take 2 ++ normpath (pyJoin build_dir (pl[idx].drop 2)) := by
          rw [rewriteTok, if_pos hm]
        rw [hrw]
        simp
      · rw [if_neg (by simpa [hget] using hm)]
        rw [ih _ _ (by omega)]
        rw [List.drop_eq_getElem_cons h, List.map_cons]
        have hrw : rewriteTok build_dir pl[idx] = pl[idx] := by
          rw [rewriteTok, if_neg hm]
        rw [hrw, List.take_succ, List.getElem?_eq_getElem h, List.append_assoc]
        rfl
    · rw [dif_neg h]
      rw [List.drop_eq_nil_of_le (by omega), List.map_nil, List.append_nil,
        List.take_of_length_le (by omega)]

/-- The returned list is the pointwise rewrite of the input. -/
theorem compute_ret_eq_map (pl : List Str) (d : Str) :
    (compute_parameters_with_absolute_paths pl d).ret = pl.map (rewriteTok d) := by
  show computeLoop d pl 0 = _
  rw [computeLoop_eq_map d pl.length pl 0 (by omega)]
  simp

/-- The caller's list ends up equal to the pointwise rewrite of its old
value: the rewrite happens in place. -/
theorem compute_arg_eq_map (pl : List Str) (d : Str) :
    (compute_parameters_with_absolute_paths pl d).arg = pl.map (rewriteTok d) := by
  show computeLoop d pl 0 = _
  rw [computeLoop_eq_map d pl.length pl 0 (by omega)]
  simp

example :
    (compute_parameters_with_absolute_paths
      ["-Isub/inc".data, "-c".data, "-L/lib/../dir".data] "/home/b".data).ret
    = ["-I/home/b/sub/inc".data, "-c".data, "-L/dir".data ] := by
  rw [compute_ret_eq_map]; decide

/-! ## `_sanity_check_impl`

The sanity check mixes pure control flow with process spawning.  The
inherited pieces that are not part of this file (`self.exelist`,
`self.exe_wrapper`, `get_output_args`, `_get_basic_compiler_args`,
`linker_to_compiler_args`, `name_string`, `self.language`) are abstract
parameters of the model (`SdccToolchain`), and the outside world's answers
(the compile invocation's return code, the probe run's fate) are an oracle
(`SanityWorld`).  The model records every spawned process in `steps`, and
returns the raised `EnvironmentException` as `Except.error`. -/

/-- Enum `CompileCheckMode` (from `..compilers`), restricted to the two values
the sanity check uses. -/
inductive CheckMode where
  | compile
  | link
  deriving DecidableEq

/-- The inherited state and methods of the compiler object used by
`_sanity_check_impl`. -/
structure SdccToolchain where
  is_cross : Bool
  exe_wrapper : Option (List Str)
  exelist : List Str
  name_string : Str
  language : Str
  output_args : Str → List Str
  basic_compiler_args : CheckMode → List Str × List Str
  linker_to_compiler_args : List Str → List Str

/-- The oracle for the two processes the check may spawn: the compile
invocation's return code, and the probe run — `.error e` models
`subprocess.run` raising (launch failure) with message `e`, `.ok rc` a
completed run with return code `rc`. -/
structure SanityWorld where
  compile_returncode : Int
  run_outcome : Except Str Int

/-- An observable side effect of the sanity check. -/
inductive SanityStep where
  | writeSource (path : Str) (code : Str)
  | spawnCompile (cmd : List Str)
  | spawnRun (cmd : List Str)
  deriving DecidableEq

/-- What a call to `_sanity_check_impl` did: its result (`.error` = the
raised `EnvironmentException`'s message), the compile mode it selected, and
the side effects it performed, in order. -/
structure SanityResult where
  outcome : Except Str Unit
  mode : CheckMode
  steps : List SanityStep

def msgCannotCompile (n : Str) : Str :=
  "Compiler ".data ++ n ++ " cannot compile programs.".data

def msgCouldNotInvoke (e : Str) : Str :=
  "Could not invoke sanity test executable: ".data ++ e ++ ".".data

def msgNotRunnable (lang n : Str) : Str :=
  "Executables created by ".data ++ lang ++ " compiler ".data ++ n
    ++ " are not runnable.".data

/-- The tail of `_sanity_check_impl` once a run command list has been
assembled: spawn the probe, mapping a launch failure and a non-zero exit
to their two distinct `EnvironmentException`s. -/
def sanityRunPhase (tc : SdccToolchain) (world : SanityWorld) (mode : CheckMode)
    (steps : List SanityStep) (cmdlist : List Str) : SanityResult :=
  let steps := steps ++ [SanityStep.spawnRun cmdlist]
  match world.run_outcome with
  | .error e => { outcome := .error (msgCouldNotInvoke e), mode := mode, steps := steps }
  | .ok rc =>
    if ¬ rc = 0 then
      { outcome := .error (msgNotRunnable tc.language tc.name_string),
        mode := mode, steps := steps }
    else { outcome := .ok (), mode := mode, steps := steps }

/-- Method `SdccCompiler._sanity_check_impl(work_dir, environment, sname, code)`. -/
def sanity_check_impl (tc : SdccToolchain) (world : SanityWorld)
    (work_dir sname code : Str) : SanityResult :=
  let source_name := pyJoin work_dir sname
  let binname0 := rsplitDotHead sname
  let mode0 := CheckMode.link
  let binname1 := if tc.is_cross then binname0 ++ "_cross".data else binname0
  let mode := if tc.is_cross ∧ tc.exe_wrapper = none then CheckMode.compile else mode0
  let extra_flags := (tc.basic_compiler_args mode).1
    ++ tc.linker_to_compiler_args (tc.basic_compiler_args mode).2
  let binname := binname1 ++ ".out".data
  let binary_name := pyJoin work_dir binname
  let cmdlist := tc.exelist ++ [sname] ++ tc.output_args binname ++ extra_flags
  let steps := [SanityStep.writeSource source_name code, SanityStep.spawnCompile cmdlist]
  if ¬ world.compile_returncode = 0 then
    { outcome := .error (msgCannotCompile tc.name_string), mode := mode, steps := steps }
  else
    match tc.is_cross, tc.exe_wrapper with
    | true, none => { outcome := .ok (), mode := mode, steps := steps }
    | true, some w => sanityRunPhase tc world mode steps (w ++ [binary_name])
    | false, _ => sanityRunPhase tc world mode steps [binary_name]

/-! ## Shared helper lemmas -/

/-- A list is a fixpoint of `map f` exactly when every element is a
fixpoint of `f`. -/
theorem list_map_fix {α : Type} (f : α → α) :
    ∀ l : List α, (l.map f = l ↔ ∀ x ∈ l, f x = x) := by
  intro l
  induction l with
  | nil => simp
  | cons a t ih => simp [ih]

/-- Is a side effect a probe-execution spawn? -/
def SanityStep.isRun : SanityStep → Bool
  | .spawnRun _ => true
  | _ => false

theorem msg_invoke_ne_runnable (e lang n : Str) :
    ¬ msgCouldNotInvoke e = msgNotRunnable lang n := by
  intro h
  have h1 : (msgCouldNotInvoke e).take 1 = (msgNotRunnable lang n).take 1 := by rw [h]
  rw [msgCouldNotInvoke, msgNotRunnable] at h1
  simp only [List.append_assoc] at h1
  rw [List.take_append_of_le_length (by decide),
    List.take_append_of_le_length (by decide)] at h1
  exact absurd h1 (by decide)

theorem msg_invoke_ne_compile (e n : Str) :
    ¬ msgCouldNotInvoke e = msgCannotCompile n := by
  intro h
  have h3 : (msgCouldNotInvoke e).take 3 = (msgCannotCompile n).take 3 := by rw [h]
  rw [msgCouldNotInvoke, msgCannotCompile] at h3
  simp only [List.append_assoc] at h3
  rw [List.take_append_of_le_length (by decide),
    List.take_append_of_le_length (by decide)] at h3
  exact absurd h3 (by decide)

theorem msg_runnable_ne_compile (lang n : Str) :
    ¬ msgNotRunnable lang n = msgCannotCompile n := by
  intro h
  have h1 : (msgNotRunnable lang n).take 1 = (msgCannotCompile n).take 1 := by rw [h]
  rw [msgNotRunnable, msgCannotCompile] at h1
  simp only [List.append_assoc] at h1
  rw [List.take_append_of_le_length (by decide),
    List.take_append_of_le_length (by decide)] at h1
  exact absurd h1 (by decide)

/-! ## Claim theorems -/

/-- C6: constructing the backend for a non-cross toolchain fails immediately
with an `EnvironmentException` (configuration error); construction succeeds
only when `is_cross` is true, where it installs the `b_ndebug` base option. -/
theorem sdcc_init_requires_cross :
    sdccInit false = .error "sdcc supports only cross-compilation.".data
    ∧ sdccInit true = .ok ["b_ndebug".data] :=
  ⟨rfl, rfl⟩

/-- C7: the optimization table maps `plain`, `0`, `g` to no flags, `1`–`3`
to `--opt-code-speed`, `s` to `--opt-code-size`, and any other level to a
lookup failure (`KeyError`, modelled as `none`). -/
theorem sdcc_optimization_args_table (lvl : Str)
    (h : ¬ lvl ∈ ["plain".data, "0".data, "g".data, "1".data, "2".data,
        "3".data, "s".data]) :
    get_optimization_args "plain".data = some []
    ∧ get_optimization_args "0".data = some []
    ∧ get_optimization_args "g".data = some []
    ∧ get_optimization_args "1".data = some ["--opt-code-speed".data]
    ∧ get_optimization_args "2".data = some ["--opt-code-speed".data]
    ∧ get_optimization_args "3".data = some ["--opt-code-speed".data]
    ∧ get_optimization_args "s".data = some ["--opt-code-size".data]
    ∧ get_optimization_args lvl = none := by
  simp only [List.mem_cons, List.not_mem_nil, or_false, not_or] at h
  obtain ⟨h1, h2, h3, h4, h5, h6, h7⟩ := h
  refine ⟨rfl, rfl, rfl, rfl, rfl, rfl, rfl, ?_⟩
  simp [get_optimization_args, OPTIMIZATION_ARGS, dictLookup, h1, h2, h3, h4, h5, h6, h7]

/-- C7 witness at the unmapped level `fast`. -/
theorem sdcc_optimization_args_table_witness :
    ¬ ("fast".data : Str) ∈ ["plain".data, "0".data, "g".data, "1".data,
        "2".data, "3".data, "s".data]
    ∧ (get_optimization_args "plain".data = some []
      ∧ get_optimization_args "0".data = some []
      ∧ get_optimization_args "g".data = some []
      ∧ get_optimization_args "1".data = some ["--opt-code-speed".data]
      ∧ get_optimization_args "2".data = some ["--opt-code-speed".data]
      ∧ get_optimization_args "3".data = some ["--opt-code-speed".data]
      ∧ get_optimization_args "s".data = some ["--opt-code-size".data]
      ∧ get_optimization_args "fast".data = none) :=
  ⟨by decide, sdcc_optimization_args_table "fast".data (by decide)⟩

/-- C8: the debug table maps `False` to no flags and `True` to exactly
`--debug`. -/
theorem sdcc_debug_args_table :
    get_debug_args false = some [] ∧ get_debug_args true = some ["--debug".data] :=
  ⟨rfl, rfl⟩

/-- C9: `get_include_args` yields the single token `-I<path>`, with the
empty path first normalized to `.`, and ignores `is_system`. -/
theorem sdcc_include_args (path : Str) (b : Bool) :
    get_include_args path b
        = [if path = [] then "-I.".data else "-I".data ++ path]
    ∧ get_include_args path b = get_include_args path (!b) := by
  refine ⟨?_, rfl⟩
  by_cases h : path = [] <;> simp [get_include_args, h]

/-- C1: a non-zero compile return code makes the sanity check raise the
toolchain-unusable `EnvironmentException` and the probe-execution step is
never attempted (no run process is ever spawned). -/
theorem sdcc_sanity_compile_failure (tc : SdccToolchain) (world : SanityWorld)
    (work_dir sname code : Str)
    (h : ¬ world.compile_returncode = 0) :
    (sanity_check_impl tc world work_dir sname code).outcome
        = .error (msgCannotCompile tc.name_string)
    ∧ ((sanity_check_impl tc world work_dir sname code).steps.filter
        (fun s => s.isRun)) = [] := by
  rw [sanity_check_impl]
  rw [if_pos h]
  exact ⟨rfl, by simp [SanityStep.isRun]⟩

/-- A concrete cross toolchain with an execution wrapper, for witnesses. -/
def tcWrapped : SdccToolchain :=
  { is_cross := true
    exe_wrapper := some ["qemu".data]
    exelist := ["sdcc".data]
    name_string := "sdcc".data
    language := "c".data
    output_args := fun b => ["-o".data ++ b]
    basic_compiler_args := fun _ => ([], [])
    linker_to_compiler_args := fun l => l }

/-- A concrete cross toolchain without an execution wrapper, for witnesses. -/
def tcBare : SdccToolchain :=
  { is_cross := true
    exe_wrapper := none
    exelist := ["sdcc".data]
    name_string := "sdcc".data
    language := "c".data
    output_args := fun b => ["-o".data ++ b]
    basic_compiler_args := fun _ => ([], [])
    linker_to_compiler_args := fun l => l }

/-- C1 witness: a failed compile (return code 1) on a wrapped cross
toolchain yields the compile-failure error and spawns no run process. -/
theorem sdcc_sanity_compile_failure_witness :
    ¬ (({ compile_returncode := 1, run_outcome := .ok 0 } : SanityWorld).compile_returncode = 0)
    ∧ ((sanity_check_impl tcWrapped { compile_returncode := 1, run_outcome := .ok 0 }
          "/w".data "t.c".data "int main;".data).outcome
        = .error (msgCannotCompile tcWrapped.name_string)
      ∧ ((sanity_check_impl tcWrapped { compile_returncode := 1, run_outcome := .ok 0 }
          "/w".data "t.c".data "int main;".data).steps.filter (fun s => s.isRun)) = []) :=
  ⟨by decide,
   sdcc_sanity_compile_failure tcWrapped { compile_returncode := 1, run_outcome := .ok 0 }
     "/w".data "t.c".data "int main;".data (by decide)⟩

/-- C2: cross-compiling with no execution wrapper selects compile-only mode,
and after a zero compile return code the check returns normally (no
exception) without ever spawning the probe binary. -/
theorem sdcc_sanity_cross_no_wrapper (tc : SdccToolchain) (world : SanityWorld)
    (work_dir sname code : Str)
    (hcross : tc.is_cross = true) (hw : tc.exe_wrapper = none)
    (hok : world.compile_returncode = 0) :
    (sanity_check_impl tc world work_dir sname code).mode = CheckMode.compile
    ∧ (sanity_check_impl tc world work_dir sname code).outcome = .ok ()
    ∧ ((sanity_check_impl tc world work_dir sname code).steps.filter
        (fun s => s.isRun)) = [] := by
  rw [sanity_check_impl]
  rw [hcross, hw, hok]
  simp [SanityStep.isRun]

/-- C2 witness: the wrapperless cross toolchain with a successful compile. -/
theorem sdcc_sanity_cross_no_wrapper_witness :
    tcBare.is_cross = true
    ∧ tcBare.exe_wrapper = none
    ∧ (({ compile_returncode := 0, run_outcome := .ok 0 } : SanityWorld).compile_returncode = 0)
    ∧ ((sanity_check_impl tcBare { compile_returncode := 0, run_outcome := .ok 0 }
          "/w".data "t.c".data "int main;".data).mode = CheckMode.compile
      ∧ (sanity_check_impl tcBare { compile_returncode := 0, run_outcome := .ok 0 }
          "/w".data "t.c".data "int main;".data).outcome = .ok ()
      ∧ ((sanity_check_impl tcBare { compile_returncode := 0, run_outcome := .ok 0 }
          "/w".data "t.c".data "int main;".data).steps.filter (fun s => s.isRun)) = []) :=
  ⟨by decide, by decide, by decide,
   sdcc_sanity_cross_no_wrapper tcBare { compile_returncode := 0, run_outcome := .ok 0 }
     "/w".data "t.c".data "int main;".data (by decide) (by decide) (by decide)⟩

/-- The outcome of the run phase is a function of the probe's fate alone. -/
theorem sanityRunPhase_outcome (tc : SdccToolchain) (world : SanityWorld)
    (mode : CheckMode) (steps : List SanityStep) (cmdlist : List Str) :
    (sanityRunPhase tc world mode steps cmdlist).outcome
      = match world.run_outcome with
        | .error err => .error (msgCouldNotInvoke err)
        | .ok rc =>
          if ¬ rc = 0 then .error (msgNotRunnable tc.language tc.name_string)
          else .ok () := by
  rw [sanityRunPhase]
  cases world.run_outcome with
  | error err => rfl
  | ok rc => by_cases h0 : rc = 0 <;> simp [h0]

/-- C10: whenever the run phase is reached (zero compile exit, and not the
cross-without-wrapper case), a launch failure raises the "Could not invoke
sanity test executable" error, a non-zero exit raises the "are not
runnable" error, a zero exit returns success; the three diagnostics are
pairwise distinct. -/
theorem sdcc_sanity_run_phase_outcomes (tc : SdccToolchain) (world : SanityWorld)
    (work_dir sname code e : Str)
    (hrun : tc.is_cross = true → ¬ tc.exe_wrapper = none)
    (hok : world.compile_returncode = 0) :
    (sanity_check_impl tc world work_dir sname code).outcome
      = (match world.run_outcome with
         | .error err => .error (msgCouldNotInvoke err)
         | .ok rc =>
           if ¬ rc = 0 then .error (msgNotRunnable tc.language tc.name_string)
           else .ok ())
    ∧ ¬ msgCouldNotInvoke e = msgNotRunnable tc.language tc.name_string
    ∧ ¬ msgCouldNotInvoke e = msgCannotCompile tc.name_string
    ∧ ¬ msgNotRunnable tc.language tc.name_string = msgCannotCompile tc.name_string := by
  refine ⟨?_, msg_invoke_ne_runnable e tc.language tc.name_string,
    msg_invoke_ne_compile e tc.name_string,
    msg_runnable_ne_compile tc.language tc.name_string⟩
  rw [sanity_check_impl, hok]
  simp only [not_true_eq_false, if_false]
  cases hc : tc.is_cross with
  | false => cases tc.exe_wrapper <;> rw [sanityRunPhase_outcome]
  | true =>
    cases hw : tc.exe_wrapper with
    | none => exact absurd hw (hrun hc)
    | some w => rw [sanityRunPhase_outcome]

/-- C10 witness: a wrapped cross toolchain whose probe exits non-zero. -/
theorem sdcc_sanity_run_phase_outcomes_witness :
    (tcWrapped.is_cross = true → ¬ tcWrapped.exe_wrapper = none)
    ∧ (({ compile_returncode := 0, run_outcome := .ok 3 } : SanityWorld).compile_returncode = 0)
    ∧ ((sanity_check_impl tcWrapped { compile_returncode := 0, run_outcome := .ok 3 }
          "/w".data "t.c".data "int main;".data).outcome
        = (match ({ compile_returncode := 0, run_outcome := .ok 3 } : SanityWorld).run_outcome with
           | .error err => .error (msgCouldNotInvoke err)
           | .ok rc =>
             if ¬ rc = 0 then .error (msgNotRunnable tcWrapped.language tcWrapped.name_string)
             else .ok ())
      ∧ ¬ msgCouldNotInvoke "no such file".data
          = msgNotRunnable tcWrapped.language tcWrapped.name_string
      ∧ ¬ msgCouldNotInvoke "no such file".data = msgCannotCompile tcWrapped.name_string
      ∧ ¬ msgNotRunnable tcWrapped.language tcWrapped.name_string
          = msgCannotCompile tcWrapped.name_string) :=
  ⟨by decide, by decide,
   sdcc_sanity_run_phase_outcomes tcWrapped { compile_returncode := 0, run_outcome := .ok 3 }
     "/w".data "t.c".data "int main;".data "no such file".data (by decide) (by decide)⟩

/-- C3 counterexample: the caller-supplied list is NOT left unchanged — the
rewrite happens in place, so after the call the caller's `parameter_list`
holds the rewritten tokens. -/
theorem sdcc_compute_params_mutates_input :
    ¬ (compute_parameters_with_absolute_paths ["-Iinc".data] "/b".data).arg
        = ["-Iinc".data] := by
  rw [compute_arg_eq_map]
  decide

/-- C3 (amended): the path rewriter returns the very list object it was
given, rewritten in place; the caller-supplied list survives the call
unchanged exactly when every token is already a fixpoint of the rewrite. -/
theorem sdcc_compute_params_in_place (pl : List Str) (d : Str) :
    (compute_parameters_with_absolute_paths pl d).ret
        = (compute_parameters_with_absolute_paths pl d).arg
    ∧ ((compute_parameters_with_absolute_paths pl d).arg = pl
        ↔ ∀ tok ∈ pl, rewriteTok d tok = tok) := by
  refine ⟨rfl, ?_⟩
  rw [compute_arg_eq_map]
  exact list_map_fix (rewriteTok d) pl

/-- C4: the rewriter maps each token through the marker test — a token whose
first two characters are `-I` or `-L` has its remainder replaced by the
normalized join of the build directory and that remainder, keeping the
marker; every other token passes through unchanged, and order is
preserved (the result is a pointwise `map`). -/
theorem sdcc_compute_params_rewrite (pl : List Str) (d : Str) :
    (compute_parameters_with_absolute_paths pl d).ret
      = pl.map (fun i =>
          if i.take 2 = "-I".data ∨ i.take 2 = "-L".data
          then i.take 2 ++ normpath (pyJoin d (i.drop 2))
          else i) :=
  compute_ret_eq_map pl d

/-! ## Path normalization theory (for the idempotence claim) -/

theorem splitSlash_ne_nil (s : Str) : ¬ splitSlash s = [] := by
  induction s with
  | nil => simp [splitSlash]
  | cons c rest ih =>
    rw [splitSlash]
    by_cases hc : c = '/'
    · simp [hc]
    · rw [if_neg hc]
      cases hsp : splitSlash rest with
      | nil => simp
      | cons h t => simp

theorem splitSlash_no_slash (s : Str) : ∀ c ∈ splitSlash s, '/' ∉ c := by
  induction s with
  | nil =>
    intro c hc
    simp [splitSlash] at hc
    simp [hc]
  | cons a rest ih =>
    intro c hc
    rw [splitSlash] at hc
    by_cases ha : a = '/'
    · rw [if_pos ha] at hc
      rcases List.mem_cons.mp hc with h | h
      · simp [h]
      · exact ih c h
    · rw [if_neg ha] at hc
      rcases hsp : splitSlash rest with _ | ⟨h0, t⟩
      · exact absurd hsp (splitSlash_ne_nil rest)
      · rw [hsp] at hc
        rcases List.mem_cons.mp hc with h | h
        · subst h
          intro hm
          rcases List.mem_cons.mp hm with h' | h'
          · exact ha h'.symm
          · exact ih h0 (by rw [hsp]; exact List.mem_cons_self h0 t) h'
        · exact ih c (by rw [hsp]; exact List.mem_cons_of_mem h0 h)

theorem splitSlash_of_no_slash (s : Str) (h : '/' ∉ s) : splitSlash s = [s] := by
  induction s with
  | nil => rfl
  | cons a rest ih =>
    rw [splitSlash]
    have ha : ¬ a = '/' := fun he => h (by simp [he])
    rw [if_neg ha, ih (fun hm => h (List.mem_cons_of_mem a hm))]

theorem splitSlash_append_slash (x s : Str) (h : '/' ∉ x) :
    splitSlash (x ++ '/' :: s) = x :: splitSlash s := by
  induction x with
  | nil => simp [splitSlash]
  | cons a t ih =>
    have ha : ¬ a = '/' := fun he => h (by simp [he])
    rw [List.cons_append, splitSlash, if_neg ha,
      ih (fun hm => h (List.mem_cons_of_mem a hm))]

theorem splitSlash_joinSlash (cs : List Str) (h : ∀ c ∈ cs, '/' ∉ c)
    (hne : ¬ cs = []) : splitSlash (joinSlash cs) = cs := by
  induction cs with
  | nil => exact absurd rfl hne
  | cons c t ih =>
    cases t with
    | nil => exact splitSlash_of_no_slash c (h c (by simp))
    | cons c2 t2 =>
      rw [joinSlash, splitSlash_append_slash _ _ (h c (by simp)),
        ih (fun d hd => h d (List.mem_cons_of_mem c hd)) (by simp)] <;> simp

theorem splitSlash_replicate (k : Nat) (s : Str) :
    splitSlash (List.replicate k '/' ++ s)
      = List.replicate k [] ++ splitSlash s := by
  induction k with
  | zero => simp
  | succ n ih => simp [List.replicate_succ, splitSlash, ih]

theorem joinSlash_cons (c : Str) (cs : List Str) :
    joinSlash (c :: cs) = c ++ (if cs = [] then [] else '/' :: joinSlash cs) := by
  cases cs with
  | nil => simp [joinSlash]
  | cons a t => rw [joinSlash] <;> simp

/-- A component kept by an absolute-path normalization: nonempty, not `.`,
not `..`, and slash-free. -/
def GoodComp (c : Str) : Prop :=
  ¬ c = [] ∧ ¬ c = ['.'] ∧ ¬ c = ['.', '.'] ∧ '/' ∉ c

theorem normStep_good (k : Nat) (hk : ¬ k = 0) (acc : List Str) (comp : Str)
    (hacc : ∀ c ∈ acc, GoodComp c) (hcomp : '/' ∉ comp) :
    ∀ c ∈ normStep k acc comp, GoodComp c := by
  intro c hc
  rw [normStep] at hc
  by_cases h1 : comp = [] ∨ comp = ['.']
  · rw [if_pos h1] at hc
    exact hacc c hc
  · rw [if_neg h1] at hc
    by_cases h2 : ¬ comp = ['.', '.'] ∨ (k = 0 ∧ acc = []) ∨
        (¬ acc = [] ∧ acc.getLast? = some ['.', '.'])
    · rw [if_pos h2] at hc
      rcases List.mem_append.mp hc with h | h
      · exact hacc c h
      · have hcc : c = comp := by simpa using h
        subst hcc
        push_neg at h1
        rcases h2 with h2 | h2 | h2
        · exact ⟨h1.1, h1.2, h2, hcomp⟩
        · exact absurd h2.1 hk
        · exact absurd rfl
            (hacc _ (List.mem_of_getLast?_eq_some h2.2)).2.2.1
    · rw [if_neg h2] at hc
      by_cases h3 : ¬ acc = []
      · rw [if_pos h3] at hc
        exact hacc c (List.dropLast_subset acc hc)
      · rw [if_neg h3] at hc
        exact hacc c hc

theorem normComps_fold_good (k : Nat) (hk : ¬ k = 0) :
    ∀ (comps acc : List Str), (∀ c ∈ comps, '/' ∉ c) → (∀ c ∈ acc, GoodComp c) →
      ∀ c ∈ comps.foldl (normStep k) acc, GoodComp c := by
  intro comps
  induction comps with
  | nil =>
    intro acc _ hacc
    simpa using hacc
  | cons a t ih =>
    intro acc hcs hacc
    rw [List.foldl_cons]
    exact ih _ (fun c hc => hcs c (List.mem_cons_of_mem a hc))
      (normStep_good k hk acc a hacc (hcs a (by simp)))

/-- Every component the normalization of a path keeps is `GoodComp` (when
at least one leading slash was recognized). -/
theorem normComps_good (k : Nat) (hk : ¬ k = 0) (p : Str) :
    ∀ c ∈ normComps k (splitSlash p), GoodComp c :=
  normComps_fold_good k hk (splitSlash p) [] (splitSlash_no_slash p) (by simp)

/-- Folding over components that are all `GoodComp` just appends them. -/
theorem normComps_fold_all_good (k : Nat) :
    ∀ (comps acc : List Str), (∀ c ∈ comps, GoodComp c) →
      comps.foldl (normStep k) acc = acc ++ comps := by
  intro comps
  induction comps with
  | nil =>
    intro acc _
    simp
  | cons a t ih =>
    intro acc h
    have ha := h a (by simp)
    rw [List.foldl_cons, normStep, if_neg (by push_neg; exact ⟨ha.1, ha.2.1⟩),
      if_pos (Or.inl ha.2.2.1), ih _ (fun c hc => h c (List.mem_cons_of_mem a hc))]
    simp

/-- Leading empty components (from leading slashes) are skipped. -/
theorem normComps_fold_skip_empty (k : Nat) (n : Nat) (acc : List Str)
    (rest : List Str) :
    (List.replicate n [] ++ rest).foldl (normStep k) acc
      = rest.foldl (normStep k) acc := by
  induction n with
  | zero => simp
  | succ m ih =>
    rw [List.replicate_succ, List.cons_append, List.foldl_cons, normStep,
      if_pos (Or.inl rfl)]
    exact ih

theorem ne_nil_of_take_one (p : Str) (h : p.take 1 = ['/']) : ¬ p = [] := by
  intro he
  rw [he] at h
  exact absurd h (by decide)

theorem initialSlashes_abs (p : Str) (h : p.take 1 = ['/']) :
    initialSlashes p = 1 ∨ initialSlashes p = 2 := by
  rw [initialSlashes, if_pos h]
  by_cases h2 : p.take 2 = ['/', '/'] ∧ ¬ p.take 3 = ['/', '/', '/']
  · rw [if_pos h2]
    right
    rfl
  · rw [if_neg h2]
    left
    rfl

theorem normpath_abs_shape (p : Str) (h : p.take 1 = ['/']) :
    normpath p = List.replicate (initialSlashes p) '/'
      ++ joinSlash (normComps (initialSlashes p) (splitSlash p)) := by
  rw [normpath, if_neg (ne_nil_of_take_one p h)]
  rcases initialSlashes_abs p h with hk | hk <;> rw [hk] <;> simp

theorem normpath_abs_take1 (p : Str) (h : p.take 1 = ['/']) :
    (normpath p).take 1 = ['/'] := by
  rw [normpath_abs_shape p h]
  rcases initialSlashes_abs p h with hk | hk <;> rw [hk] <;> rfl

theorem pyJoin_abs_left (d x : Str) (hd : d.take 1 = ['/']) :
    (pyJoin d x).take 1 = ['/'] := by
  rw [pyJoin]
  have hlen : 1 ≤ d.length := by
    have := List.length_pos.mpr (ne_nil_of_take_one d hd)
    omega
  by_cases hx : x.take 1 = ['/']
  · rw [if_pos hx]
    exact hx
  · rw [if_neg hx]
    by_cases h2 : d = [] ∨ d.getLast? = some '/'
    · rw [if_pos h2, List.take_append_of_le_length hlen]
      exact hd
    · rw [if_neg h2, List.take_append_of_le_length hlen]
      exact hd

/-- An already-normalized absolute path is a fixpoint of `normpath`. -/
theorem normpath_fixpoint (k : Nat) (hk : k = 1 ∨ k = 2) (cs : List Str)
    (hgood : ∀ c ∈ cs, GoodComp c) :
    normpath (List.replicate k '/' ++ joinSlash cs)
      = List.replicate k '/' ++ joinSlash cs := by
  cases cs with
  | nil => rcases hk with hk | hk <;> rw [hk] <;> decide
  | cons c t =>
    have hc := hgood c (by simp)
    obtain ⟨ch, c', rfl⟩ : ∃ ch c', c = ch :: c' := by
      cases c with
      | nil => exact absurd rfl hc.1
      | cons ch c' => exact ⟨ch, c', rfl⟩
    have hch : ¬ ch = '/' := fun he => hc.2.2.2 (by simp [he])
    have hq : List.replicate k '/' ++ joinSlash ((ch :: c') :: t)
        = List.replicate k '/' ++ ch :: (c'
            ++ (if t = [] then [] else '/' :: joinSlash t)) := by
      rw [joinSlash_cons]
      simp
    have hne : ¬ (List.replicate k '/' ++ joinSlash ((ch :: c') :: t)) = [] := by
      rcases hk with hk | hk <;> rw [hq, hk] <;> simp
    have hks : initialSlashes (List.replicate k '/' ++ joinSlash ((ch :: c') :: t))
        = k := by
      rcases hk with hk | hk <;>
        rw [hq, hk, initialSlashes] <;>
        simp [hch]
    have hsplit : splitSlash (List.replicate k '/' ++ joinSlash ((ch :: c') :: t))
        = List.replicate k [] ++ ((ch :: c') :: t) := by
      rw [splitSlash_replicate,
        splitSlash_joinSlash _ (fun d hd => (hgood d hd).2.2.2) (by simp)]
    have hcomps : normComps k (splitSlash
          (List.replicate k '/' ++ joinSlash ((ch :: c') :: t)))
        = (ch :: c') :: t := by
      rw [hsplit, normComps, normComps_fold_skip_empty,
        normComps_fold_all_good k _ _ hgood]
      simp
    rw [normpath, if_neg hne, hks]
    simp only [hcomps]
    rcases hk with hk | hk <;> rw [hk] <;> simp

/-- Function `normpath` is idempotent on absolute paths. -/
theorem normpath_idem_abs (p : Str) (h : p.take 1 = ['/']) :
    normpath (normpath p) = normpath p := by
  have hk := initialSlashes_abs p h
  have hknz : ¬ initialSlashes p = 0 := by rcases hk with hk | hk <;> omega
  rw [normpath_abs_shape p h]
  exact normpath_fixpoint (initialSlashes p) hk
    (normComps (initialSlashes p) (splitSlash p))
    (normComps_good (initialSlashes p) hknz p)

/-- Function `posixpath.join` returns an absolute second argument unchanged. -/
theorem pyJoin_absolute_right (d x : Str) (hx : x.take 1 = ['/']) :
    pyJoin d x = x := by
  rw [pyJoin, if_pos hx]

/-- With an absolute build directory, one application of the token rewrite
reaches a fixpoint. -/
theorem rewriteTok_idem (d tok : Str) (hd : d.take 1 = ['/']) :
    rewriteTok d (rewriteTok d tok) = rewriteTok d tok := by
  by_cases hm : tok.take 2 = "-I".data ∨ tok.take 2 = "-L".data
  · have habs : (normpath (pyJoin d (tok.drop 2))).take 1 = ['/'] :=
      normpath_abs_take1 _ (pyJoin_abs_left d _ hd)
    have h1 : rewriteTok d tok
        = tok.take 2 ++ normpath (pyJoin d (tok.drop 2)) := by
      rw [rewriteTok, if_pos hm]
    rw [h1]
    have hlen : (tok.take 2).length = 2 := by
      rcases hm with hm | hm <;> rw [hm] <;> rfl
    have htake : (tok.take 2 ++ normpath (pyJoin d (tok.drop 2))).take 2
        = tok.take 2 := by
      rw [List.take_append_of_le_length (by omega), List.take_take]
      simp
    have hdrop : (tok.take 2 ++ normpath (pyJoin d (tok.drop 2))).drop 2
        = normpath (pyJoin d (tok.drop 2)) :=
      List.drop_left' hlen
    rw [rewriteTok, htake, if_pos hm, hdrop,
      pyJoin_absolute_right d _ habs,
      normpath_idem_abs _ (pyJoin_abs_left d _ hd)]
  · have h1 : rewriteTok d tok = tok := by rw [rewriteTok, if_neg hm]
    rw [h1, h1]

/-- C5 counterexample: with a relative build directory the rewrite is NOT
idempotent — rewriting `-Ia` against build dir `b` once gives `-Ib/a`,
twice gives `-Ib/b/a`. -/
theorem sdcc_rewrite_not_idempotent :
    ¬ (compute_parameters_with_absolute_paths
          ((compute_parameters_with_absolute_paths ["-Ia".data] "b".data).ret)
          "b".data).ret
        = (compute_parameters_with_absolute_paths ["-Ia".data] "b".data).ret := by
  simp only [compute_ret_eq_map]
  decide

/-- C5 (amended): the rewrite is idempotent whenever the build directory is
absolute (as meson build directories are); and for any build directory
whatsoever, a `-I`/`-L` token whose path portion is already absolute is
left unchanged up to normalization of that portion. -/
theorem sdcc_rewrite_idempotent_abs (pl : List Str) (d tok : Str) :
    (d.take 1 = ['/'] →
      (compute_parameters_with_absolute_paths
          ((compute_parameters_with_absolute_paths pl d).ret) d).ret
        = (compute_parameters_with_absolute_paths pl d).ret)
    ∧ ((tok.take 2 = "-I".data ∨ tok.take 2 = "-L".data) →
        (tok.drop 2).take 1 = ['/'] →
        rewriteTok d tok = tok.take 2 ++ normpath (tok.drop 2)) := by
  constructor
  · intro hd
    simp only [compute_ret_eq_map, List.map_map]
    exact List.map_congr_left (fun x _ => rewriteTok_idem d x hd)
  · intro hm habs
    rw [rewriteTok, if_pos hm, pyJoin_absolute_right d _ habs]

/-- C5 witness: idempotence at the absolute build dir `/b`, and stability of
the absolute-portion token `-I/x` at the relative build dir `b`. -/
theorem sdcc_rewrite_idempotent_abs_witness :
    (compute_parameters_with_absolute_paths
        ((compute_parameters_with_absolute_paths ["-I/x".data] "/b".data).ret)
        "/b".data).ret
      = (compute_parameters_with_absolute_paths ["-I/x".data] "/b".data).ret
    ∧ rewriteTok "b".data "-I/x".data
        = ("-I/x".data : Str).take 2 ++ normpath (("-I/x".data : Str).drop 2) :=
  ⟨(sdcc_rewrite_idempotent_abs ["-I/x".data] "/b".data "-I/x".data).1 (by decide),
   (sdcc_rewrite_idempotent_abs ["-I/x".data] "b".data "-I/x".data).2
     (by decide) (by decide)⟩
